import Mathlib

/-!
Verification of the nps server-side bridge and proxy fabric.

The definitions below are a shallow embedding of the Go sources:
`lib/common/util.go`, `lib/rate/conn.go` (package file parts),
`lib/file/file.go` (package bridge part), `lib/pmux/pmux.go`,
and `server/proxy/base.go`.  Pure functions become Lean functions,
stateful loop bodies become explicit state-passing functions, and Go
`nil` slices / pointers become `Option`.
-/

namespace NPS

/-! ## Helpers from lib/common/util.go -/

/-- Split a character list at every occurrence of `sep` (the behaviour of
Go `strings.Split` for a one-character separator: the empty input gives one
empty field, a trailing separator a trailing empty field). -/
def splitSep (sep : Char) : List Char → List (List Char)
  | [] => [[]]
  | c :: t =>
    if c == sep then [] :: splitSep sep t
    else match splitSep sep t with
      | h :: r => (c :: h) :: r
      | [] => [[c]]

/-- Model of `strings.Split(s, sep)` for a one-character separator (the only uses in
the modelled sources are `"\n"` and `":"`). -/
def stringsSplit (s : String) (sep : Char) : List String :=
  (splitSep sep s.data).map String.mk

/-- Model of `strings.Index(s, p) == 0`, i.e. `p` starts `s`. -/
def strStartsWith (s p : String) : Bool :=
  p.data.isPrefixOf s.data

/-- Model of `common.GetIpByAddr`: `strings.Split(addr, ":")[0]`. -/
def getIpByAddr (addr : String) : String :=
  (stringsSplit addr ':').headD ""

/-- Model of `common.TrimArr`: drop empty strings from the array. -/
def trimArr (arr : List String) : List String :=
  arr.filter (fun v => !(v == ""))

/-- Model of `common.IsArrContains`: membership test; a `nil` array contains nothing
(`nil` is modelled by the caller passing `[]` via `Option.getD`). -/
def isArrContains (arr : List String) (val : String) : Bool :=
  arr.any (fun v => v == val)

/-- Model of `common.RemoveArrVal`: remove the first occurrence of `val`. -/
def removeArrVal : List String → String → List String
  | [], _ => []
  | v :: t, val => if v == val then t else v :: removeArrVal t val

/-- Substring test on character lists (the `strings.Contains` loop). -/
def listContainsSub (needle : List Char) : List Char → Bool
  | [] => needle.isEmpty
  | c :: t => needle.isPrefixOf (c :: t) || listContainsSub needle t

/-- Model of `strings.Contains(s, sub)`. -/
def strContains (s sub : String) : Bool :=
  listContainsSub sub.data s.data

/-- Number of decimal digits of a byte value (0..255), used by `bytesToNum`. -/
def decDigits (n : Nat) : Nat :=
  if n < 10 then 1 else if n < 100 then 2 else 3

/-- Model of `common.BytesToNum`: concatenate the decimal writings of the byte values
and read the result back as a number.  For byte values (≤ 255) the numeric
fold below is exactly that string concatenation followed by `strconv.Atoi`. -/
def bytesToNum (b : List Nat) : Nat :=
  b.foldl (fun acc x => acc * 10 ^ decDigits x + x) 0

/-! ## Target round-robin, from lib/rate/conn.go (package file, `Target`) -/

/-- Model of `file.Target`: `nowIndex` is the round-robin cursor, `targetArr = none`
models the Go `nil` slice. -/
structure Target where
  nowIndex : Int
  targetStr : String
  targetArr : Option (List String)
deriving DecidableEq

/-- Model of `Target.GetRandomTarget`.  Mirrors the Go body: a `nil` array is first
replaced by `strings.Split(TargetStr, "\n")` (no trimming here); a singleton
array short-circuits; an empty array is an error; otherwise the cursor is
advanced with wrap-around and the pointed entry returned.  (Go would panic
on a negative stored index; such states are unreachable and `List.getD`
simply defaults there.) -/
def getRandomTarget (s : Target) : Except String String × Target :=
  let arr := match s.targetArr with
    | none => stringsSplit s.targetStr '\n'
    | some a => a
  let s1 : Target := ⟨s.nowIndex, s.targetStr, some arr⟩
  if arr.length = 1 then
    (Except.ok (arr.headD ""), s1)
  else if arr.length = 0 then
    (Except.error "all inward-bending targets are offline", s1)
  else
    let i : Int := if s.nowIndex ≥ (arr.length : Int) - 1 then 0 else s.nowIndex + 1
    (Except.ok (arr.getD i.toNat ""), ⟨i, s.targetStr, some arr⟩)

/-- Outputs and final state of `n` successive `GetRandomTarget` calls. -/
def grtRun (s : Target) : Nat → List (Except String String) × Target
  | 0 => ([], s)
  | n + 1 =>
    let p := getRandomTarget s
    let q := grtRun p.2 n
    (p.1 :: q.1, q.2)

/-- The index selected by one `GetRandomTarget` call from cursor `i` over an
array of length `n`: wrap to `0` from `n - 1` (or beyond), else advance. -/
def stepIdx (i n : Nat) : Nat :=
  if n - 1 ≤ i then 0 else i + 1

/-! ## Data model from lib/rate/conn.go (package file) -/

/-- Model of `file.Flow` (the three counters; locks are irrelevant to the model). -/
structure Flow where
  exportFlow : Int
  inletFlow : Int
  flowLimit : Int
deriving DecidableEq

/-- The slice of `file.Tunnel` that the claims touch.  Here `healthRemoveArr = none`
models the Go `nil` slice. -/
structure Tunnel where
  id : Int
  clientId : Int
  mode : String
  password : String
  target : Target
  healthRemoveArr : Option (List String)
  flow : Flow
deriving DecidableEq

/-- The slice of `file.Host` that the claims touch. -/
structure Host where
  id : Int
  host : String
  location : String
  scheme : String
  isClose : Bool
  clientId : Int
  target : Target
  healthRemoveArr : Option (List String)
deriving DecidableEq

/-! ## Health report ingestion, from `Bridge.GetHealthFromClient`
(lib/file/file.go, package bridge) -/

/-- The live target array the health-fail branch operates on: re-split the
target string when the array is `nil`, or when it is empty while nothing has
been health-removed — exactly the Go condition
`TargetArr == nil || (len(TargetArr) == 0 && len(HealthRemoveArr) == 0)`. -/
def effArr (tgt : Target) (hra : Option (List String)) : List String :=
  match tgt.targetArr with
  | none => trimArr (stringsSplit tgt.targetStr '\n')
  | some a =>
    if a.length = 0 ∧ (hra.getD []).length = 0
    then trimArr (stringsSplit tgt.targetStr '\n') else a

/-- Body of the `status=false` branch once its guard holds: remove the first
occurrence of `info` from the live array and append `info` to
`HealthRemoveArr` (allocating it when `nil`). -/
def healthFailCore (info : String) (tgt : Target) (hra : Option (List String)) :
    Target × Option (List String) :=
  (⟨tgt.nowIndex, tgt.targetStr, some (removeArrVal (effArr tgt hra) info)⟩,
   some (hra.getD [] ++ [info]))

/-- Body of the `status=true` branch once its guard holds: append `info` back
to the target array and drop it from `HealthRemoveArr`. -/
def healthRecoverCore (info : String) (tgt : Target) (hra : Option (List String)) :
    Target × Option (List String) :=
  (⟨tgt.nowIndex, tgt.targetStr, some (tgt.targetArr.getD [] ++ [info])⟩,
   some (removeArrVal (hra.getD []) info))

/-- Per-tunnel action of a `status=false` health report (loop body of the
`Tasks.Range` in `GetHealthFromClient`): guarded by owner id, `Mode == "tcp"`
and `strings.Contains(TargetStr, info)`. -/
def healthFailTunnel (id : Int) (info : String) (v : Tunnel) : Tunnel :=
  if v.clientId = id ∧ v.mode = "tcp" ∧ strContains v.target.targetStr info = true then
    let p := healthFailCore info v.target v.healthRemoveArr
    ⟨v.id, v.clientId, v.mode, v.password, p.1, p.2, v.flow⟩
  else v

/-- Per-host action of a `status=false` health report (no mode guard). -/
def healthFailHost (id : Int) (info : String) (v : Host) : Host :=
  if v.clientId = id ∧ strContains v.target.targetStr info = true then
    let p := healthFailCore info v.target v.healthRemoveArr
    ⟨v.id, v.host, v.location, v.scheme, v.isClose, v.clientId, p.1, p.2⟩
  else v

/-- Per-tunnel action of a `status=true` health report: guarded by owner id,
`Mode == "tcp"`, membership of `info` in `HealthRemoveArr` and absence of
`info` from `TargetArr`. -/
def healthRecoverTunnel (id : Int) (info : String) (v : Tunnel) : Tunnel :=
  if v.clientId = id ∧ v.mode = "tcp" ∧
     isArrContains (v.healthRemoveArr.getD []) info = true ∧
     isArrContains (v.target.targetArr.getD []) info = false then
    let p := healthRecoverCore info v.target v.healthRemoveArr
    ⟨v.id, v.clientId, v.mode, v.password, p.1, p.2, v.flow⟩
  else v

/-- Per-host action of a `status=true` health report. -/
def healthRecoverHost (id : Int) (info : String) (v : Host) : Host :=
  if v.clientId = id ∧
     isArrContains (v.healthRemoveArr.getD []) info = true ∧
     isArrContains (v.target.targetArr.getD []) info = false then
    let p := healthRecoverCore info v.target v.healthRemoveArr
    ⟨v.id, v.host, v.location, v.scheme, v.isClose, v.clientId, p.1, p.2⟩
  else v

/-! ## Bridge sessions: `Bridge.SendLinkInfo` and `Bridge.ping`
(lib/file/file.go, package bridge) -/

/-- Model of `conn.Link`: the fields `SendLinkInfo` reads. -/
structure Link where
  localProxy : Bool
  host : String
  remoteAddr : String
deriving DecidableEq

/-- A `bridge.Client` session as seen by `SendLinkInfo` and `ping`:
the two muxes are identified by numbers, `none` is a `nil` mux.  For the
tunnel mux `some (m, isClose)` also records `Mux.IsClose`; the signal
connection is only present or absent. -/
structure Session where
  tunnel : Option (Nat × Bool)
  file : Option Nat
  signal : Bool
  retryTime : Nat
deriving DecidableEq

/-- The `bridge.Bridge` state read by `SendLinkInfo`: the ip-verification
flag, the registered-IPs map (expiry instants as integers) and the client
session table. -/
structure Bridge where
  ipVerify : Bool
  register : List (String × Int)
  clients : List (Int × Session)
deriving DecidableEq

/-- Result of `SendLinkInfo`. -/
inductive LinkResult where
  | localSocket : String → LinkResult
  | stream : Nat → LinkResult
  | err : String → LinkResult
deriving DecidableEq

/-- The mux `SendLinkInfo` selects: the file mux when the tunnel exists with
`Mode == "file"`, else the work tunnel mux. -/
def selectedMux (v : Session) (t : Option Tunnel) : Option Nat :=
  match t with
  | some tt => if tt.mode = "file" then v.file else (v.tunnel.map Prod.fst)
  | none => v.tunnel.map Prod.fst

/-- Model of `Bridge.SendLinkInfo`.  The argument `now` is the current instant; registration times
pass the `time.Time.After(now)` test exactly when they are `> now`.
Opening a stream on a mux (`tunnel.NewConn`) and the follow-up `SendInfo`
are modelled as succeeding; the claims are about the gating logic. -/
def sendLinkInfo (s : Bridge) (now : Int) (clientId : Int) (link : Link)
    (t : Option Tunnel) : LinkResult :=
  if link.localProxy then LinkResult.localSocket link.host
  else match List.lookup clientId s.clients with
    | none => LinkResult.err ("the client " ++ toString clientId ++ " is not connect")
    | some v =>
      let ipFailure : Option LinkResult :=
        if s.ipVerify then
          let ip := getIpByAddr link.remoteAddr
          match List.lookup ip s.register with
          | none => some (LinkResult.err ("The ip " ++ ip ++ " is not in the validation list"))
          | some expire =>
            if ¬ (now < expire) then
              some (LinkResult.err ("The validity of the ip " ++ ip ++ " has expired"))
            else none
        else none
      match ipFailure with
      | some e => e
      | none =>
        match selectedMux v t with
        | none => LinkResult.err "the client connect error"
        | some m => LinkResult.stream m

/-- One client's treatment inside the 5-second `Bridge.ping` sweep body:
returns the updated session and whether it is scheduled for `DelClient`.
Missing tunnel mux or missing signal increments `retryTime` and removes at
`retryTime >= 3`; otherwise a closed tunnel mux removes immediately. -/
def pingCheck (v : Session) : Session × Bool :=
  if v.tunnel = none ∨ v.signal = false then
    (⟨v.tunnel, v.file, v.signal, v.retryTime + 1⟩, decide (3 ≤ v.retryTime + 1))
  else
    (v, (v.tunnel.map Prod.snd).getD false)

/-- A whole `ping` tick over the client table: update every session, then
delete the flagged ones. -/
def pingSweep (table : List (Int × Session)) : List (Int × Session) :=
  ((table.map (fun kv => (kv.1, pingCheck kv.2))).filter
     (fun kv => !kv.2.2)).map (fun kv => (kv.1, kv.2.1))

/-- The condition of the first `ping` branch: the signal connection or the
tunnel mux of the session is missing (`v.tunnel == nil || v.signal == nil`). -/
def missingConn (s : Session) : Bool :=
  s.tunnel.isNone || !s.signal

/-- Everything that can happen to one stored session between its heartbeat
checks, per the writes to `Bridge.Client` in the source: `WORK_MAIN` assigns
a live signal connection (`setSignal`), `WORK_CHAN` a fresh open tunnel mux
(`setTunnel`), `WORK_FILE` a fresh file mux (`setFile`); an established
tunnel mux may report closed (`closeTunnel`); and the 5-second sweep visits
it (`check`).  No write ever puts `nil` back into a field: a session is
created whole (with retry counter 0) and deleted whole. -/
inductive SessStep where
  | check : SessStep
  | setSignal : SessStep
  | setTunnel : Nat → SessStep
  | setFile : Nat → SessStep
  | closeTunnel : SessStep
deriving DecidableEq

/-- Effect of the non-`check` events on the stored session; `check` itself
is handled by the run function and leaves the fields to `pingCheck`. -/
def applyEnv : SessStep → Session → Session
  | SessStep.check, s => s
  | SessStep.setSignal, s => ⟨s.tunnel, s.file, true, s.retryTime⟩
  | SessStep.setTunnel m, s => ⟨some (m, false), s.file, s.signal, s.retryTime⟩
  | SessStep.setFile m, s => ⟨s.tunnel, some m, s.signal, s.retryTime⟩
  | SessStep.closeTunnel, s =>
    ⟨s.tunnel.map (fun p => (p.1, true)), s.file, s.signal, s.retryTime⟩

/-- Outcome of a session's history: still in the table, removed by a sweep
that found a connection missing (the retry path), or removed by a sweep
that found the tunnel mux closed. -/
inductive RunResult where
  | alive : Session → RunResult
  | removedMissing : RunResult
  | removedClosed : RunResult
deriving DecidableEq

/-- A session's history: each `check` applies `pingCheck` and deletes the
session when the sweep flags it, every other event applies `applyEnv`. -/
def sessRun (s : Session) : List SessStep → RunResult
  | [] => RunResult.alive s
  | SessStep.check :: rest =>
    let p := pingCheck s
    if p.2 then
      if missingConn s then RunResult.removedMissing else RunResult.removedClosed
    else sessRun p.1 rest
  | e :: rest => sessRun (applyEnv e s) rest

/-- The number of failed checks in a history: checks that visit the session
while a connection is missing (counting stops when the session is removed). -/
def runFailed (s : Session) : List SessStep → Nat
  | [] => 0
  | SessStep.check :: rest =>
    let p := pingCheck s
    let c := if missingConn s then 1 else 0
    if p.2 then c else c + runFailed p.1 rest
  | e :: rest => runFailed (applyEnv e s) rest

/-! ## Port multiplexer, lib/pmux/pmux.go -/

/-- The protocol constants of `pmux.go`, values exactly as in the source
(including `HTTP_PUT = 808585`, which does not equal
`bytesToNum` of the bytes of "PUT" = 808584). -/
def HTTP_GET : Nat := 716984

def HTTP_POST : Nat := 807983

def HTTP_HEAD : Nat := 726965

def HTTP_PUT : Nat := 808585

def HTTP_DELETE : Nat := 686976

def HTTP_CONNECT : Nat := 677978

def HTTP_OPTIONS : Nat := 798084

def HTTP_TRACE : Nat := 848265

def CLIENT : Nat := 848384

def ACCEPT_TIME_OUT : Nat := 10

/-- Nanoseconds per second: the unit of Go `time.Duration` is the
nanosecond. -/
def nanosPerSecond : Nat := 1000000000

/-- The duration, in nanoseconds, of the handoff timer created by
`time.NewTimer(ACCEPT_TIME_OUT)` in `PortMux.process`: the untyped constant
`10` converts to `time.Duration(10)`, i.e. 10 nanoseconds (the
`* time.Second` factor is absent in the source). -/
def classifyHandoffTimerNs : Nat := ACCEPT_TIME_OUT

/-- The four sub-listener channels of `PortMux`. -/
inductive PChan where
  | clientChan
  | httpChan
  | httpsChan
  | managerChan
deriving DecidableEq

/-- The channel decision of `PortMux.process` on the first three bytes.
For the HTTP branch, `hostHeaderVal` is the trimmed value of the first
`Host:` header line, or `none` when the header loop hits a read error (in
which case the connection is closed and nothing is dispatched, hence the
`Option`). -/
def pmuxClassify (buf : List Nat) (hostHeaderVal : Option String)
    (managerHost : String) : Option PChan :=
  let n := bytesToNum buf
  if n = HTTP_CONNECT ∨ n = HTTP_DELETE ∨ n = HTTP_GET ∨ n = HTTP_HEAD ∨
     n = HTTP_OPTIONS ∨ n = HTTP_POST ∨ n = HTTP_PUT ∨ n = HTTP_TRACE then
    match hostHeaderVal with
    | none => none
    | some str =>
      if getIpByAddr str = managerHost then some PChan.managerChan
      else some PChan.httpChan
  else if n = CLIENT then some PChan.clientChan
  else some PChan.httpsChan

/-- Model of `pmux.PortConn`: the replay buffer `rs`, the cursor `start`, the
`readMore` flag, and the bytes still available on the wrapped connection. -/
structure PortConn where
  rs : List Nat
  start : Nat
  readMore : Bool
  under : List Nat
deriving DecidableEq

/-- Model of `PortConn.Read` with a destination buffer of size `bsize`, returning the
delivered bytes and the new state.  The first branch reproduces the source
verbatim: it copies from the start of `rs` (not from `rs[start:]`) whenever
the buffer is smaller than the remaining cache.  A read on the wrapped
connection delivers as many bytes as fit. -/
def portConnRead (p : PortConn) (bsize : Nat) : List Nat × PortConn :=
  if bsize < p.rs.length - p.start then
    (p.rs.take bsize, ⟨p.rs, p.start + bsize, p.readMore, p.under⟩)
  else if p.start < p.rs.length then
    let delivered := (p.rs.drop p.start).take bsize
    if p.readMore = false then
      (delivered, ⟨p.rs, p.rs.length, p.readMore, p.under⟩)
    else
      let m := min (bsize - delivered.length) p.under.length
      (delivered ++ p.under.take m, ⟨p.rs, p.rs.length, p.readMore, p.under.drop m⟩)
  else
    let m := min bsize p.under.length
    (p.under.take m, ⟨p.rs, p.start, p.readMore, p.under.drop m⟩)

/-! ## Host resolution, `DbUtils.GetInfoByHost` (lib/rate/conn.go, package file) -/

/-- Scheme admission: host scheme `"all"` or equal to the request scheme. -/
def schemeOk (v : Host) (scheme : String) : Bool :=
  v.scheme == "all" || v.scheme == scheme

/-- Host-pattern admission: a pattern containing `*` matches when the request
host contains the pattern with every `*` removed; otherwise exact equality. -/
def hostPatternMatch (pattern reqHost : String) : Bool :=
  if strContains pattern "*" then
    strContains reqHost (String.mk (pattern.data.filter (fun c => !(c == '*'))))
  else pattern == reqHost

/-- The candidate pass of `GetInfoByHost`: non-closed, scheme-admissible,
pattern-matching hosts, with the empty location defaulted to "/" (the Go
loop mutates the stored host in place before comparing). -/
def hostCandidates (hosts : List Host) (reqHost scheme : String) : List Host :=
  ((hosts.filter (fun v => !v.isClose && schemeOk v scheme &&
      hostPatternMatch v.host (getIpByAddr reqHost))).map
    (fun v => if v.location = "" then
        ⟨v.id, v.host, "/", v.scheme, v.isClose, v.clientId, v.target, v.healthRemoveArr⟩
      else v))

/-- The selection step of the second loop: keep the candidate whose location
is a prefix of the request URI and strictly longest so far. -/
def selectLonger (uri : String) (h : Option Host) (v : Host) : Option Host :=
  if strStartsWith uri v.location then
    match h with
    | none => some v
    | some hh => if hh.location.length < v.location.length then some v else some hh
  else h

/-- Model of `DbUtils.GetInfoByHost`. -/
def getInfoByHost (hosts : List Host) (reqHost scheme requestURI : String) :
    Option Host :=
  (hostCandidates hosts reqHost scheme).foldl (selectLonger requestURI) none

/-! ## Flow / connection gate, `BaseServer.CheckFlowAndConnNum`
(server/proxy/base.go) -/

/-- Two-complement wrap of Go `int64` arithmetic. -/
def i64 (n : Int) : Int := (n + 2 ^ 63) % 2 ^ 64 - 2 ^ 63

/-- The slice of `file.Client` the gate reads. -/
structure FClient where
  flow : Flow
  maxConn : Int
  nowConn : Int
deriving DecidableEq

/-- Model of `Client.GetConn`: admit when `MaxConn == 0` or `NowConn < MaxConn`,
incrementing the live counter on admission. -/
def getConn (c : FClient) : Bool × FClient :=
  if c.maxConn = 0 ∨ c.nowConn < c.maxConn then
    (true, ⟨c.flow, c.maxConn, c.nowConn + 1⟩)
  else (false, c)

/-- Model of `BaseServer.CheckFlowAndConnNum`: reject with "Traffic exceeded" when
`FlowLimit > 0 && (FlowLimit<<20) < (ExportFlow+InletFlow)` (int64
arithmetic), else run the connection-count gate. -/
def checkFlowAndConnNum (c : FClient) : Except String FClient :=
  if c.flow.flowLimit > 0 ∧
     i64 (c.flow.flowLimit * 2 ^ 20) < i64 (c.flow.exportFlow + c.flow.inletFlow) then
    Except.error "Traffic exceeded"
  else
    let g := getConn c
    if g.1 then Except.ok g.2
    else Except.error "Connections exceed the current client limit"

/-! ## Task creation, `DbUtils.NewTask` (lib/rate/conn.go, package file) -/

/-- Model of `sync.Map.Store` on the task table keyed by id. -/
def storeTask (tasks : List Tunnel) (t : Tunnel) : List Tunnel :=
  if tasks.any (fun v => v.id == t.id) then
    tasks.map (fun v => if v.id == t.id then t else v)
  else tasks ++ [t]

/-- Model of `DbUtils.NewTask`: scan the stored tasks; any stored secret/p2p task with
the same password aborts with an error before anything is stored; otherwise
reset the flow counters and store. -/
def newTask (tasks : List Tunnel) (t : Tunnel) : Except String (List Tunnel) :=
  match tasks.find? (fun v => (v.mode == "secret" || v.mode == "p2p") &&
      v.password == t.password) with
  | some _ => Except.error ("secret mode keys " ++ t.password ++ " must be unique")
  | none =>
    Except.ok (storeTask tasks
      ⟨t.id, t.clientId, t.mode, t.password, t.target, t.healthRemoveArr, ⟨0, 0, 0⟩⟩)

/-! ## SOCKS5 request dispatch, `Sock5ModeServer.handleRequest`
(server/proxy/base.go, socks5 part) -/

def connectMethod : Nat := 1

def bindMethod : Nat := 2

def associateMethod : Nat := 3

def commandNotSupported : Nat := 7

/-- Observable effects of a SOCKS5 request handler: the reply codes written,
whether the handler closes the connection, and whether it opens a stream to
the agent (via `SendLinkInfo`/`DealClient`). -/
structure SockEffects where
  replies : List Nat
  closes : Bool
  opensStream : Bool
deriving DecidableEq

/-- Model of `Sock5ModeServer.handleBind`: the body is empty (a TODO stub), so it has
no effects at all. -/
def handleBindEffects : SockEffects := ⟨[], false, false⟩

/-- The `default` arm of `handleRequest`: `sendReply(commandNotSupported)`
then `c.Close()`. -/
def rejectEffects : SockEffects := ⟨[commandNotSupported], true, false⟩

/-- Model of `Sock5ModeServer.handleRequest` dispatch on the command byte.  The
effects of `handleConnect` and `handleUDP` depend on runtime state and are
passed in as parameters; the BIND and default arms are fixed by the source. -/
def handleRequest (cmd : Nat) (connectEff udpEff : SockEffects) : SockEffects :=
  if cmd = connectMethod then connectEff
  else if cmd = bindMethod then handleBindEffects
  else if cmd = associateMethod then udpEff
  else rejectEffects

/-! ## Concrete instances used in the claim statements -/

/-- A udp-mode tunnel of agent 7 whose target string holds the probed
target. -/
def udpT : Tunnel := ⟨1, 7, "udp", "", ⟨0, "10.0.0.1:22", none⟩, none, ⟨0, 0, 0⟩⟩

/-- A tcp-mode tunnel of agent 7 whose target string lists the probed target
twice. -/
def dupT : Tunnel := ⟨2, 7, "tcp", "", ⟨0, "10.0.0.1:22\n10.0.0.1:22", none⟩, none, ⟨0, 0, 0⟩⟩

/-- Host rule `a.com` with location `/`. -/
def hostRoot : Host := ⟨1, "a.com", "/", "all", false, 1, ⟨0, "", none⟩, none⟩

/-- Host rule `a.com` with location `/api`. -/
def hostApi : Host := ⟨2, "a.com", "/api", "all", false, 1, ⟨0, "", none⟩, none⟩

/-- A stored secret-mode tunnel with password `s3cr3t`. -/
def secretT1 : Tunnel := ⟨1, 1, "secret", "s3cr3t", ⟨0, "127.0.0.1:22", none⟩, none, ⟨0, 0, 0⟩⟩

/-- A second secret-mode tunnel with the same password. -/
def secretT2 : Tunnel := ⟨2, 1, "secret", "s3cr3t", ⟨0, "127.0.0.1:23", none⟩, none, ⟨0, 0, 0⟩⟩

/-- An agent with flow quota 1 MiB whose cumulative flow equals exactly
`1 <<< 20` bytes. -/
def quotaBoundaryClient : FClient := ⟨⟨1048576, 0, 1⟩, 0, 0⟩

/-! # Theorems -/

/-! ## Round-robin lemmas for `GetRandomTarget` -/

theorem stepIdx_lt (i n : Nat) (h2 : 2 ≤ n) : stepIdx i n < n := by
  unfold stepIdx
  split <;> omega

theorem stepIdx_mod (i n : Nat) (hi : i < n) (h2 : 2 ≤ n) :
    stepIdx i n = (i + 1) % n := by
  unfold stepIdx
  split
  · have h : i + 1 = n := by omega
    rw [h, Nat.mod_self]
  · rw [Nat.mod_eq_of_lt (by omega)]

theorem grt_step (l : List String) (s : String) (i : Nat) (h2 : 2 ≤ l.length) :
    getRandomTarget ⟨(i : Int), s, some l⟩ =
      (Except.ok (l.getD (stepIdx i l.length) ""),
       ⟨(stepIdx i l.length : Int), s, some l⟩) := by
  unfold getRandomTarget
  have hne1 : ¬ l.length = 1 := by omega
  have hne0 : ¬ l.length = 0 := by omega
  simp only [hne1, hne0, if_false]
  unfold stepIdx
  by_cases hc : (l.length - 1 : Nat) ≤ i
  · have hc2 : (i : Int) ≥ (l.length : Int) - 1 := by omega
    rw [if_pos hc2, if_pos hc]
    simp
  · have hc2 : ¬ ((i : Int) ≥ (l.length : Int) - 1) := by omega
    rw [if_neg hc2, if_neg hc]
    have htn : ((i : Int) + 1).toNat = i + 1 := by omega
    rw [htn]
    have hcast : (i : Int) + 1 = ((i + 1 : Nat) : Int) := by omega
    rw [hcast]

theorem grt_run_outputs (l : List String) (s : String) (h2 : 2 ≤ l.length) :
    ∀ (k i : Nat), i < l.length →
      (grtRun ⟨(i : Int), s, some l⟩ k).1 =
        (List.range k).map (fun j => Except.ok (l.getD ((j + (i + 1)) % l.length) "")) := by
  intro k
  induction k with
  | zero => intro i hi; simp [grtRun]
  | succ k ih =>
    intro i hi
    show ((getRandomTarget ⟨(i : Int), s, some l⟩).1 ::
        (grtRun (getRandomTarget ⟨(i : Int), s, some l⟩).2 k).1, _).1 = _
    rw [grt_step l s i h2]
    have hlt : stepIdx i l.length < l.length := stepIdx_lt i l.length h2
    have hmod : stepIdx i l.length = (i + 1) % l.length := stepIdx_mod i l.length hi h2
    show Except.ok (l.getD (stepIdx i l.length) "") ::
        (grtRun ⟨(stepIdx i l.length : Int), s, some l⟩ k).1 = _
    rw [ih (stepIdx i l.length) hlt, List.range_succ_eq_map, List.map_cons, List.map_map]
    congr 1
    · rw [hmod, Nat.zero_add]
    · apply List.map_congr_left
      intro j hj
      simp only [Function.comp_apply]
      congr 2
      rw [hmod]
      have e1 : j + ((i + 1) % l.length + 1) = (j + 1) + (i + 1) % l.length := by omega
      rw [e1, Nat.add_comm (j + 1) ((i + 1) % l.length), Nat.mod_add_mod]
      congr 1
      omega

theorem range_map_getD_eq_rotate (l : List String) (m : Nat) :
    (List.range l.length).map (fun j => l.getD ((j + m) % l.length) "") = l.rotate m := by
  apply List.ext_getElem
  · simp
  · intro n h1 h2
    have hn : n < l.length := by simpa using h1
    have hmem : (n + m) % l.length < l.length := Nat.mod_lt _ (by omega)
    simp only [List.getElem_map, List.getElem_range, List.getElem_rotate]
    exact List.getD_eq_getElem l "" hmem

theorem grt_run_perm (l : List String) (s : String) (i : Nat)
    (h2 : 2 ≤ l.length) (hi : i < l.length) :
    (grtRun ⟨(i : Int), s, some l⟩ l.length).1.Perm (l.map Except.ok) := by
  rw [grt_run_outputs l s h2 l.length i hi]
  have : (List.range l.length).map
      (fun j => Except.ok (l.getD ((j + (i + 1)) % l.length) "")) =
      (l.rotate (i + 1)).map (Except.ok (ε := String)) := by
    rw [← range_map_getD_eq_rotate l (i + 1), List.map_map]
    rfl
  rw [this]
  exact (l.rotate_perm (i + 1)).map Except.ok

theorem grt_run_singleton (s : String) (x : String) :
    ∀ (k : Nat) (i : Int), (grtRun ⟨i, s, some [x]⟩ k).1 =
      List.replicate k (Except.ok x) := by
  intro k
  induction k with
  | zero => intro i; rfl
  | succ k ih =>
    intro i
    show (getRandomTarget ⟨i, s, some [x]⟩).1 ::
        (grtRun (getRandomTarget ⟨i, s, some [x]⟩).2 k).1 = _
    have hstep : getRandomTarget ⟨i, s, some [x]⟩ =
        (Except.ok x, ⟨i, s, some [x]⟩) := rfl
    rw [hstep, ih i, List.replicate_succ]

theorem grt_run_empty (s : String) :
    ∀ (k : Nat) (i : Int), (grtRun ⟨i, s, some []⟩ k).1 =
      List.replicate k (Except.error "all inward-bending targets are offline") := by
  intro k
  induction k with
  | zero => intro i; rfl
  | succ k ih =>
    intro i
    show (getRandomTarget ⟨i, s, some []⟩).1 ::
        (grtRun (getRandomTarget ⟨i, s, some []⟩).2 k).1 = _
    have hstep : getRandomTarget ⟨i, s, some []⟩ =
        (Except.error "all inward-bending targets are offline", ⟨i, s, some []⟩) := rfl
    rw [hstep, ih i, List.replicate_succ]

theorem grt_preserves (t : Target) (l : List String) (h : t.targetArr = some l) :
    (getRandomTarget t).2.targetArr = some l ∧
    ((getRandomTarget t).1 = Except.error "all inward-bending targets are offline" ∨
     ∃ y ∈ l, (getRandomTarget t).1 = Except.ok y) := by
  obtain ⟨i, str, arr⟩ := t
  simp only at h
  subst h
  have hgetDmem : ∀ (m : Nat), m < l.length → l.getD m "" ∈ l := by
    intro m hm
    rw [List.getD_eq_getElem l "" hm]
    exact List.getElem_mem hm
  by_cases h0 : l.length = 0
  · have hl : l = [] := List.length_eq_zero.mp h0
    subst hl
    exact ⟨rfl, Or.inl rfl⟩
  · by_cases h1 : l.length = 1
    · match l, h1 with
      | [y], _ => exact ⟨rfl, Or.inr ⟨y, List.mem_singleton_self y, rfl⟩⟩
    · unfold getRandomTarget
      simp only [h1, h0, if_false]
      refine ⟨trivial, Or.inr ?_⟩
      by_cases hc : i ≥ (l.length : Int) - 1
      · rw [if_pos hc]
        exact ⟨l.getD (0 : Int).toNat "", hgetDmem (0 : Int).toNat (by omega), rfl⟩
      · rw [if_neg hc]
        exact ⟨l.getD (i + 1).toNat "", hgetDmem (i + 1).toNat (by omega), rfl⟩

theorem grt_no_phantom (l : List String) (x : String) (hx : x ∉ l) :
    ∀ (k : Nat) (t : Target), t.targetArr = some l →
      Except.ok x ∉ (grtRun t k).1 := by
  intro k
  induction k with
  | zero => intro t ht; simp [grtRun]
  | succ k ih =>
    intro t ht
    show Except.ok x ∉ (getRandomTarget t).1 :: (grtRun (getRandomTarget t).2 k).1
    obtain ⟨hpres, hval⟩ := grt_preserves t l ht
    intro hmem
    rcases List.mem_cons.mp hmem with hhead | htail
    · rcases hval with herr | ⟨y, hy, hok⟩
      · rw [herr] at hhead
        exact Except.noConfusion hhead
      · rw [hok] at hhead
        have hxy : x = y := by simpa using hhead
        exact hx (hxy ▸ hy)
    · exact ih (getRandomTarget t).2 hpres htail

theorem grt_returns_mem (l : List String) (x : String) (hx : x ∈ l) (t : Target)
    (harr : t.targetArr = some l) (hnn : 0 ≤ t.nowIndex) :
    Except.ok x ∈ (grtRun t (l.length + 1)).1 := by
  obtain ⟨i, str, arr⟩ := t
  simp only at harr hnn
  subst harr
  have hIntNat : i = ((i.toNat : Nat) : Int) := by omega
  by_cases h0 : l.length = 0
  · rw [List.length_eq_zero] at h0
    subst h0
    simp at hx
  · by_cases h1 : l.length = 1
    · match l, h1 with
      | [y], _ =>
        simp only [List.length_singleton]
        rw [grt_run_singleton str y (1 + 1) i]
        have : x = y := by simpa using hx
        subst this
        simp
    · have h2 : 2 ≤ l.length := by omega
      rw [hIntNat]
      show Except.ok x ∈ (getRandomTarget ⟨((i.toNat : Nat) : Int), str, some l⟩).1 ::
        (grtRun (getRandomTarget ⟨((i.toNat : Nat) : Int), str, some l⟩).2 l.length).1
      rw [grt_step l str i.toNat h2]
      apply List.mem_cons_of_mem
      have hperm := grt_run_perm l str (stepIdx i.toNat l.length) h2
        (stepIdx_lt i.toNat l.length h2)
      exact hperm.symm.subset (List.mem_map_of_mem Except.ok hx)

theorem removeArrVal_not_mem (l : List String) (x : String) (h : l.count x ≤ 1) :
    x ∉ removeArrVal l x := by
  induction l with
  | nil => simp [removeArrVal]
  | cons v t ih =>
    rw [List.count_cons] at h
    unfold removeArrVal
    by_cases hv : v = x
    · subst hv
      rw [if_pos (by simp)]
      have h0 : t.count v = 0 := by
        simp only [beq_self_eq_true, if_true] at h
        omega
      exact List.count_eq_zero.mp h0
    · rw [if_neg (by simp [hv])]
      simp only [List.mem_cons, not_or]
      refine ⟨fun he => hv he.symm, ?_⟩
      apply ih
      have hne : (v == x) = false := beq_eq_false_iff_ne.mpr hv
      rw [hne] at h
      simpa using h

/-! ## Claim C10 -/

/-- C10: for a non-nil `TargetArr` of `n ≥ 2` entries, `GetRandomTarget`
always succeeds and cycles deterministically: from cursor `i < n` it returns
the entry at index `(i+1) % n` (so a fresh target with cursor 0 yields the
entry at index 1, and the cursor wraps from `n-1` to 0), and any `n`
consecutive calls return each entry exactly once (their outputs are a
permutation of the entries); with exactly one entry that entry is returned
on every call, and with zero entries in a non-nil array every call returns
an error. -/
theorem getRandomTarget_cycles (t : Target) (l : List String)
    (harr : t.targetArr = some l) :
    (∀ i : Nat, t.nowIndex = (i : Int) → 2 ≤ l.length → i < l.length →
       getRandomTarget t =
         (Except.ok (l.getD (stepIdx i l.length) ""),
          ⟨(stepIdx i l.length : Int), t.targetStr, some l⟩) ∧
       stepIdx i l.length = (i + 1) % l.length ∧
       (grtRun t l.length).1.Perm (l.map Except.ok)) ∧
    (l.length = 1 →
       ∀ k, (grtRun t k).1 = List.replicate k (Except.ok (l.headD ""))) ∧
    (l = [] →
       ∀ k, (grtRun t k).1 =
         List.replicate k (Except.error "all inward-bending targets are offline")) := by
  obtain ⟨i0, str, arr⟩ := t
  simp only at harr
  subst harr
  refine ⟨?_, ?_, ?_⟩
  · intro i hi h2 hlt
    simp only at hi
    subst hi
    exact ⟨grt_step l str i h2, stepIdx_mod i l.length hlt h2,
      grt_run_perm l str i h2 hlt⟩
  · intro h1 k
    match l, h1 with
    | [y], _ => exact grt_run_singleton str y k i0
  · intro hl k
    subst hl
    exact grt_run_empty str k i0

/-- Witness for C10 at the concrete target list `["a", "b", "c"]`. -/
theorem getRandomTarget_cycles_witness :
    getRandomTarget ⟨0, "", some ["a", "b", "c"]⟩ =
      (Except.ok "b", ⟨1, "", some ["a", "b", "c"]⟩) ∧
    (grtRun ⟨0, "", some ["a", "b", "c"]⟩ 3).1.Perm
      (["a", "b", "c"].map Except.ok) := by
  obtain ⟨h1, h2, h3⟩ :=
    getRandomTarget_cycles ⟨0, "", some ["a", "b", "c"]⟩ ["a", "b", "c"] rfl
  obtain ⟨hstep, hmod, hperm⟩ := h1 0 rfl (by decide) (by decide)
  exact ⟨hstep.trans (by rfl), hperm⟩

/-! ## Claim C2 -/

/-- C2 counterexample: the claim fails as stated.  (a) The `status=false`
branch only touches tunnels with `Mode == "tcp"`: the udp tunnel `udpT` of
agent 7, whose target string contains the reported target, is left entirely
unchanged — nothing is removed and nothing is appended to
`HealthRemoveArr`.  (b) When the target string lists the same target twice,
only the first occurrence is removed, and a subsequent `GetRandomTarget`
still returns the reported target. -/
theorem healthReport_counterexample :
    udpT.clientId = 7 ∧
    strContains udpT.target.targetStr "10.0.0.1:22" = true ∧
    healthFailTunnel 7 "10.0.0.1:22" udpT = udpT ∧
    (healthFailTunnel 7 "10.0.0.1:22" udpT).healthRemoveArr = none ∧
    dupT.mode = "tcp" ∧
    (getRandomTarget (healthFailTunnel 7 "10.0.0.1:22" dupT).target).1 =
      Except.ok "10.0.0.1:22" := by
  refine ⟨rfl, by decide, by decide, by decide, rfl, rfl⟩

/-- C2 (amended): a `status=false` health report for target `info` mutates
exactly the tcp-mode tunnels (and all hosts) of the reporting agent whose
target string contains `info`: `info` is appended to `HealthRemoveArr` and
its first occurrence is removed from the live target array; when `info`
occurred at most once in that array, no subsequent sequence of
`GetRandomTarget` calls ever returns it.  A later `status=true` report
(given `info` health-removed and absent from the array) appends `info` back
to the target array, drops it from `HealthRemoveArr`, and `GetRandomTarget`
may return it again: it does so within `n + 1` further calls. -/
theorem healthReport_amended (id : Int) (info : String) :
    (∀ v : Tunnel, v.clientId = id → v.mode = "tcp" →
       strContains v.target.targetStr info = true →
       (healthFailTunnel id info v).healthRemoveArr =
         some (v.healthRemoveArr.getD [] ++ [info]) ∧
       (healthFailTunnel id info v).target.targetArr =
         some (removeArrVal (effArr v.target v.healthRemoveArr) info) ∧
       ((effArr v.target v.healthRemoveArr).count info ≤ 1 →
          ∀ k, Except.ok info ∉ (grtRun (healthFailTunnel id info v).target k).1)) ∧
    (∀ v : Host, v.clientId = id →
       strContains v.target.targetStr info = true →
       (healthFailHost id info v).healthRemoveArr =
         some (v.healthRemoveArr.getD [] ++ [info]) ∧
       (healthFailHost id info v).target.targetArr =
         some (removeArrVal (effArr v.target v.healthRemoveArr) info) ∧
       ((effArr v.target v.healthRemoveArr).count info ≤ 1 →
          ∀ k, Except.ok info ∉ (grtRun (healthFailHost id info v).target k).1)) ∧
    (∀ v : Tunnel, v.clientId = id → v.mode = "tcp" →
       isArrContains (v.healthRemoveArr.getD []) info = true →
       isArrContains (v.target.targetArr.getD []) info = false →
       (healthRecoverTunnel id info v).target.targetArr =
         some (v.target.targetArr.getD [] ++ [info]) ∧
       (healthRecoverTunnel id info v).healthRemoveArr =
         some (removeArrVal (v.healthRemoveArr.getD []) info) ∧
       (0 ≤ v.target.nowIndex →
          Except.ok info ∈ (grtRun (healthRecoverTunnel id info v).target
            ((v.target.targetArr.getD []).length + 2)).1)) ∧
    (∀ v : Host, v.clientId = id →
       isArrContains (v.healthRemoveArr.getD []) info = true →
       isArrContains (v.target.targetArr.getD []) info = false →
       (healthRecoverHost id info v).target.targetArr =
         some (v.target.targetArr.getD [] ++ [info]) ∧
       (healthRecoverHost id info v).healthRemoveArr =
         some (removeArrVal (v.healthRemoveArr.getD []) info) ∧
       (0 ≤ v.target.nowIndex →
          Except.ok info ∈ (grtRun (healthRecoverHost id info v).target
            ((v.target.targetArr.getD []).length + 2)).1)) := by
  refine ⟨?_, ?_, ?_, ?_⟩
  · intro v h1 h2 h3
    have hguard : v.clientId = id ∧ v.mode = "tcp" ∧
        strContains v.target.targetStr info = true := ⟨h1, h2, h3⟩
    simp only [healthFailTunnel, if_pos hguard, healthFailCore]
    refine ⟨trivial, trivial, ?_⟩
    intro hcount k
    exact grt_no_phantom (removeArrVal (effArr v.target v.healthRemoveArr) info)
      info (removeArrVal_not_mem _ info hcount) k _ rfl
  · intro v h1 h3
    have hguard : v.clientId = id ∧
        strContains v.target.targetStr info = true := ⟨h1, h3⟩
    simp only [healthFailHost, if_pos hguard, healthFailCore]
    refine ⟨trivial, trivial, ?_⟩
    intro hcount k
    exact grt_no_phantom (removeArrVal (effArr v.target v.healthRemoveArr) info)
      info (removeArrVal_not_mem _ info hcount) k _ rfl
  · intro v h1 h2 h3 h4
    have hguard : v.clientId = id ∧ v.mode = "tcp" ∧
        isArrContains (v.healthRemoveArr.getD []) info = true ∧
        isArrContains (v.target.targetArr.getD []) info = false := ⟨h1, h2, h3, h4⟩
    simp only [healthRecoverTunnel, if_pos hguard, healthRecoverCore]
    refine ⟨trivial, trivial, ?_⟩
    intro hnn
    have hmem : info ∈ v.target.targetArr.getD [] ++ [info] :=
      List.mem_append_right _ (List.mem_singleton_self info)
    have hlen : (v.target.targetArr.getD [] ++ [info]).length =
        (v.target.targetArr.getD []).length + 1 := by simp
    have := grt_returns_mem (v.target.targetArr.getD [] ++ [info]) info hmem
      ⟨v.target.nowIndex, v.target.targetStr,
        some (v.target.targetArr.getD [] ++ [info])⟩ rfl hnn
    rw [hlen] at this
    exact this
  · intro v h1 h3 h4
    have hguard : v.clientId = id ∧
        isArrContains (v.healthRemoveArr.getD []) info = true ∧
        isArrContains (v.target.targetArr.getD []) info = false := ⟨h1, h3, h4⟩
    simp only [healthRecoverHost, if_pos hguard, healthRecoverCore]
    refine ⟨trivial, trivial, ?_⟩
    intro hnn
    have hmem : info ∈ v.target.targetArr.getD [] ++ [info] :=
      List.mem_append_right _ (List.mem_singleton_self info)
    have hlen : (v.target.targetArr.getD [] ++ [info]).length =
        (v.target.targetArr.getD []).length + 1 := by simp
    have := grt_returns_mem (v.target.targetArr.getD [] ++ [info]) info hmem
      ⟨v.target.nowIndex, v.target.targetStr,
        some (v.target.targetArr.getD [] ++ [info])⟩ rfl hnn
    rw [hlen] at this
    exact this

/-- Witness for C2 (amended): a concrete tcp tunnel of agent 7 with targets
`10.0.0.1:22` and `10.0.0.2:22`; after the fail report for `10.0.0.1:22` no
run of `GetRandomTarget` returns it, and after the recover report it is
returned again. -/
theorem healthReport_amended_witness :
    (healthFailTunnel 7 "10.0.0.1:22"
        ⟨3, 7, "tcp", "", ⟨0, "10.0.0.1:22\n10.0.0.2:22", none⟩, none, ⟨0, 0, 0⟩⟩).healthRemoveArr =
      some ["10.0.0.1:22"] ∧
    (∀ k, Except.ok "10.0.0.1:22" ∉
      (grtRun (healthFailTunnel 7 "10.0.0.1:22"
        ⟨3, 7, "tcp", "", ⟨0, "10.0.0.1:22\n10.0.0.2:22", none⟩, none, ⟨0, 0, 0⟩⟩).target k).1) ∧
    Except.ok "10.0.0.1:22" ∈
      (grtRun (healthRecoverTunnel 7 "10.0.0.1:22"
        ⟨4, 7, "tcp", "", ⟨0, "10.0.0.1:22\n10.0.0.2:22", some ["10.0.0.2:22"]⟩,
          some ["10.0.0.1:22"], ⟨0, 0, 0⟩⟩).target 3).1 := by
  obtain ⟨hfailT, hfailH, hrecT, hrecH⟩ := healthReport_amended 7 "10.0.0.1:22"
  obtain ⟨ha, hb, hc⟩ := hfailT
    ⟨3, 7, "tcp", "", ⟨0, "10.0.0.1:22\n10.0.0.2:22", none⟩, none, ⟨0, 0, 0⟩⟩
    rfl rfl (by decide)
  obtain ⟨hd, he, hf⟩ := hrecT
    ⟨4, 7, "tcp", "", ⟨0, "10.0.0.1:22\n10.0.0.2:22", some ["10.0.0.2:22"]⟩,
      some ["10.0.0.1:22"], ⟨0, 0, 0⟩⟩
    rfl rfl (by decide) (by decide)
  refine ⟨ha.trans (by decide), ?_, ?_⟩
  · intro k
    exact hc (by decide) k
  · exact hf (by decide)

/-! ## Claim C1 -/

/-- C1: for `SendLinkInfo` on a connected agent (`clientId` present in the
session table): with `LocalProxy = true` the call dials `link.Host` locally
and returns that socket, with no registered-IPs check; with
`LocalProxy = false`, if ip verification is on and the IP of
`link.RemoteAddr` is absent from the registered-IPs map, or its registration
expiry is not after `now`, the call returns an error and no stream; past
that gate, a `nil` selected mux (the file mux when the tunnel mode is
`"file"`, else the work tunnel mux) fails with the agent-not-connected
error, and otherwise a new stream is opened on exactly that mux. -/
theorem sendLinkInfo_gating (s : Bridge) (now clientId : Int) (link : Link)
    (t : Option Tunnel) (v : Session)
    (hconn : List.lookup clientId s.clients = some v) :
    (link.localProxy = true →
       sendLinkInfo s now clientId link t = LinkResult.localSocket link.host) ∧
    (link.localProxy = false → s.ipVerify = true →
       List.lookup (getIpByAddr link.remoteAddr) s.register = none →
       sendLinkInfo s now clientId link t =
         LinkResult.err ("The ip " ++ getIpByAddr link.remoteAddr ++
           " is not in the validation list")) ∧
    (∀ expire : Int, link.localProxy = false → s.ipVerify = true →
       List.lookup (getIpByAddr link.remoteAddr) s.register = some expire →
       expire ≤ now →
       sendLinkInfo s now clientId link t =
         LinkResult.err ("The validity of the ip " ++ getIpByAddr link.remoteAddr ++
           " has expired")) ∧
    (link.localProxy = false →
       (s.ipVerify = false ∨
        (∃ expire : Int,
           List.lookup (getIpByAddr link.remoteAddr) s.register = some expire ∧
           now < expire)) →
       (selectedMux v t = none →
          sendLinkInfo s now clientId link t =
            LinkResult.err "the client connect error") ∧
       (∀ m : Nat, selectedMux v t = some m →
          sendLinkInfo s now clientId link t = LinkResult.stream m)) := by
  refine ⟨?_, ?_, ?_, ?_⟩
  · intro hlp
    unfold sendLinkInfo
    rw [if_pos hlp]
  · intro hlp hverify hreg
    unfold sendLinkInfo
    rw [if_neg (by simp [hlp]), hconn]
    simp only [hverify, if_true, hreg]
  · intro expire hlp hverify hreg hexp
    unfold sendLinkInfo
    rw [if_neg (by simp [hlp]), hconn]
    simp only [hverify, if_true, hreg]
    rw [if_pos (by omega)]
  · intro hlp hok
    have hfall :
        (if s.ipVerify = true then
          match List.lookup (getIpByAddr link.remoteAddr) s.register with
          | none => some (LinkResult.err ("The ip " ++ getIpByAddr link.remoteAddr ++
              " is not in the validation list"))
          | some expire =>
            if ¬ (now < expire) then
              some (LinkResult.err ("The validity of the ip " ++
                getIpByAddr link.remoteAddr ++ " has expired"))
            else none
        else none) = none := by
      rcases hok with hoff | ⟨expire, hreg, hlt⟩
      · simp [hoff]
      · by_cases hv : s.ipVerify = true
        · simp only [hv, if_true, hreg]
          rw [if_neg (not_not_intro hlt)]
        · simp [hv]
    constructor
    · intro hmux
      unfold sendLinkInfo
      rw [if_neg (by simp [hlp]), hconn]
      simp only [hfall, hmux]
    · intro m hmux
      unfold sendLinkInfo
      rw [if_neg (by simp [hlp]), hconn]
      simp only [hfall, hmux]

/-- Witness for C1: a bridge with ip verification on, one registered IP and
one connected agent; all four branches are exercised at concrete inputs. -/
theorem sendLinkInfo_gating_witness :
    sendLinkInfo ⟨true, [("1.2.3.4", 100)], [(5, ⟨some (11, false), some 12, true, 0⟩)]⟩
        50 5 ⟨true, "inner.host:80", "1.2.3.4:999"⟩ none =
      LinkResult.localSocket "inner.host:80" ∧
    sendLinkInfo ⟨true, [("1.2.3.4", 100)], [(5, ⟨some (11, false), some 12, true, 0⟩)]⟩
        50 5 ⟨false, "inner.host:80", "9.9.9.9:999"⟩ none =
      LinkResult.err "The ip 9.9.9.9 is not in the validation list" ∧
    sendLinkInfo ⟨true, [("1.2.3.4", 100)], [(5, ⟨some (11, false), some 12, true, 0⟩)]⟩
        200 5 ⟨false, "inner.host:80", "1.2.3.4:999"⟩ none =
      LinkResult.err "The validity of the ip 1.2.3.4 has expired" ∧
    sendLinkInfo ⟨true, [("1.2.3.4", 100)], [(5, ⟨some (11, false), some 12, true, 0⟩)]⟩
        50 5 ⟨false, "inner.host:80", "1.2.3.4:999"⟩ none =
      LinkResult.stream 11 ∧
    sendLinkInfo ⟨true, [("1.2.3.4", 100)], [(5, ⟨none, none, true, 0⟩)]⟩
        50 5 ⟨false, "inner.host:80", "1.2.3.4:999"⟩ none =
      LinkResult.err "the client connect error" := by
  obtain ⟨w1, w2, w3, w4⟩ := sendLinkInfo_gating
    ⟨true, [("1.2.3.4", 100)], [(5, ⟨some (11, false), some 12, true, 0⟩)]⟩
    50 5 ⟨false, "inner.host:80", "1.2.3.4:999"⟩ none
    ⟨some (11, false), some 12, true, 0⟩ (by decide)
  obtain ⟨y1, y2, y3, y4⟩ := sendLinkInfo_gating
    ⟨true, [("1.2.3.4", 100)], [(5, ⟨none, none, true, 0⟩)]⟩
    50 5 ⟨false, "inner.host:80", "1.2.3.4:999"⟩ none
    ⟨none, none, true, 0⟩ (by decide)
  refine ⟨?_, ?_, ?_, ?_, ?_⟩
  · exact (sendLinkInfo_gating
      ⟨true, [("1.2.3.4", 100)], [(5, ⟨some (11, false), some 12, true, 0⟩)]⟩
      50 5 ⟨true, "inner.host:80", "1.2.3.4:999"⟩ none
      ⟨some (11, false), some 12, true, 0⟩ (by decide)).1 rfl
  · exact ((sendLinkInfo_gating
      ⟨true, [("1.2.3.4", 100)], [(5, ⟨some (11, false), some 12, true, 0⟩)]⟩
      50 5 ⟨false, "inner.host:80", "9.9.9.9:999"⟩ none
      ⟨some (11, false), some 12, true, 0⟩ (by decide)).2.1 rfl rfl (by decide)).trans
      (by decide)
  · exact (((sendLinkInfo_gating
      ⟨true, [("1.2.3.4", 100)], [(5, ⟨some (11, false), some 12, true, 0⟩)]⟩
      200 5 ⟨false, "inner.host:80", "1.2.3.4:999"⟩ none
      ⟨some (11, false), some 12, true, 0⟩ (by decide)).2.2.1 100 rfl rfl (by decide)
      (by decide)).trans (by decide))
  · exact (w4 rfl (Or.inr ⟨100, by decide, by decide⟩)).2 11 (by decide)
  · exact (y4 rfl (Or.inr ⟨100, by decide, by decide⟩)).1 (by decide)

/-! ## Claim C3 -/

/-- C3: the spec says all eight HTTP methods route to the HTTP/admin
sub-listeners and that buffered prefix bytes are re-delivered; the code
disagrees on two points it itself documents otherwise.  (a) The constant
`HTTP_PUT = 808585` does not equal `bytesToNum` of the bytes of "PUT"
(= 808584), so a connection starting `PUT` falls to the default arm and is
routed to the HTTPS channel.  (b) `PortConn.Read` copies from the start of
the replay buffer instead of the cursor, so a second small read re-delivers
the first byte: two 1-byte reads on a buffer `[10, 20, 30]` yield
`10, 10` instead of `10, 20`.  The remaining seven methods, the agent token
`TST` (848384) and the default arm behave as claimed, and a first read with
a buffer at least as large as the replay buffer does deliver it intact. -/
theorem pmux_put_misroute :
    bytesToNum [80, 85, 84] = 808584 ∧
    HTTP_PUT = 808585 ∧
    pmuxClassify [80, 85, 84] (some "a.com") "a.com" = some PChan.httpsChan ∧
    pmuxClassify [71, 69, 84] (some "a.com") "a.com" = some PChan.managerChan ∧
    pmuxClassify [71, 69, 84] (some "b.com") "a.com" = some PChan.httpChan ∧
    pmuxClassify [80, 79, 83] (some "b.com") "a.com" = some PChan.httpChan ∧
    pmuxClassify [84, 83, 84] none "a.com" = some PChan.clientChan ∧
    pmuxClassify [22, 3, 1] none "a.com" = some PChan.httpsChan ∧
    (portConnRead ⟨[10, 20, 30], 0, false, []⟩ 5).1 = [10, 20, 30] ∧
    (portConnRead ⟨[10, 20, 30], 0, false, []⟩ 1).1 = [10] ∧
    (portConnRead (portConnRead ⟨[10, 20, 30], 0, false, []⟩ 1).2 1).1 = [10] := by
  refine ⟨rfl, rfl, rfl, rfl, rfl, rfl, rfl, rfl, rfl, rfl, rfl⟩

/-! ## Claim C4 -/

theorem missingConn_iff (s : Session) :
    missingConn s = true ↔ (s.tunnel = none ∨ s.signal = false) := by
  obtain ⟨t, f, sg, r⟩ := s
  cases t <;> cases sg <;> simp [missingConn]

theorem pingCheck_missing (s : Session) (h : missingConn s = true) :
    pingCheck s = (⟨s.tunnel, s.file, s.signal, s.retryTime + 1⟩,
      decide (3 ≤ s.retryTime + 1)) := by
  unfold pingCheck
  rw [if_pos ((missingConn_iff s).mp h)]

theorem pingCheck_healthy (s : Session) (h : missingConn s = false) :
    pingCheck s = (s, (s.tunnel.map Prod.snd).getD false) := by
  unfold pingCheck
  rw [if_neg (fun hc => by rw [(missingConn_iff s).mpr hc] at h; exact Bool.noConfusion h)]

theorem applyEnv_keeps_conn (e : SessStep) (s : Session)
    (h : missingConn s = false) : missingConn (applyEnv e s) = false := by
  obtain ⟨t, f, sg, r⟩ := s
  cases t <;> cases sg <;> cases e <;> simp_all [missingConn, applyEnv]

theorem applyEnv_retry (e : SessStep) (s : Session) :
    (applyEnv e s).retryTime = s.retryTime := by
  cases e <;> rfl

theorem runFailed_healthy (s : Session) (h : missingConn s = false) :
    ∀ steps : List SessStep, runFailed s steps = 0 := by
  intro steps
  induction steps generalizing s with
  | nil => rfl
  | cons step rest ih =>
    cases step with
    | check =>
      show (let p := pingCheck s
            let c := if missingConn s then 1 else 0
            if p.2 then c else c + runFailed p.1 rest) = 0
      rw [pingCheck_healthy s h]
      simp only [h, if_false, Bool.false_eq_true]
      split
      · rfl
      · rw [Nat.zero_add]
        exact ih s h
    | setSignal =>
      exact ih (applyEnv SessStep.setSignal s) (applyEnv_keeps_conn _ s h)
    | setTunnel m =>
      exact ih (applyEnv (SessStep.setTunnel m) s) (applyEnv_keeps_conn _ s h)
    | setFile m =>
      exact ih (applyEnv (SessStep.setFile m) s) (applyEnv_keeps_conn _ s h)
    | closeTunnel =>
      exact ih (applyEnv SessStep.closeTunnel s) (applyEnv_keeps_conn _ s h)

theorem sessRun_check_missing (s : Session) (rest : List SessStep)
    (h : missingConn s = true) :
    sessRun s (SessStep.check :: rest) =
      if 3 ≤ s.retryTime + 1 then RunResult.removedMissing
      else sessRun ⟨s.tunnel, s.file, s.signal, s.retryTime + 1⟩ rest := by
  show (let p := pingCheck s
        if p.2 then
          if missingConn s then RunResult.removedMissing else RunResult.removedClosed
        else sessRun p.1 rest) = _
  rw [pingCheck_missing s h]
  simp only [h, decide_eq_true_eq, if_true]

theorem sessRun_check_healthy (s : Session) (rest : List SessStep)
    (h : missingConn s = false) :
    sessRun s (SessStep.check :: rest) =
      if ((s.tunnel.map Prod.snd).getD false) = true then RunResult.removedClosed
      else sessRun s rest := by
  show (let p := pingCheck s
        if p.2 then
          if missingConn s then RunResult.removedMissing else RunResult.removedClosed
        else sessRun p.1 rest) = _
  rw [pingCheck_healthy s h]
  simp only [h, Bool.false_eq_true, if_false]

theorem runFailed_check_missing (s : Session) (rest : List SessStep)
    (h : missingConn s = true) :
    runFailed s (SessStep.check :: rest) =
      if 3 ≤ s.retryTime + 1 then 1
      else 1 + runFailed ⟨s.tunnel, s.file, s.signal, s.retryTime + 1⟩ rest := by
  show (let p := pingCheck s
        let c := if missingConn s then 1 else 0
        if p.2 then c else c + runFailed p.1 rest) = _
  rw [pingCheck_missing s h]
  simp only [h, decide_eq_true_eq, if_true]

theorem runFailed_check_healthy (s : Session) (rest : List SessStep)
    (h : missingConn s = false) :
    runFailed s (SessStep.check :: rest) =
      if ((s.tunnel.map Prod.snd).getD false) = true then 0
      else runFailed s rest := by
  show (let p := pingCheck s
        let c := if missingConn s then 1 else 0
        if p.2 then c else c + runFailed p.1 rest) = _
  rw [pingCheck_healthy s h]
  simp only [h, Bool.false_eq_true, if_false, Nat.zero_add]

theorem sessRun_alive (steps : List SessStep) :
    ∀ (s0 s : Session), sessRun s0 steps = RunResult.alive s →
      s.retryTime = s0.retryTime + runFailed s0 steps ∧
      s.retryTime ≤ max 2 s0.retryTime := by
  induction steps with
  | nil =>
    intro s0 s h
    have hs : s0 = s := by simpa [sessRun] using h
    subst hs
    exact ⟨rfl, by omega⟩
  | cons step rest ih =>
    intro s0 s h
    cases step with
    | check =>
      by_cases hmiss : missingConn s0 = true
      · rw [sessRun_check_missing s0 rest hmiss] at h
        rw [runFailed_check_missing s0 rest hmiss]
        by_cases hrm : 3 ≤ s0.retryTime + 1
        · rw [if_pos hrm] at h
          exact absurd h (by simp)
        · rw [if_neg hrm] at h
          rw [if_neg hrm]
          obtain ⟨ha, hb⟩ := ih ⟨s0.tunnel, s0.file, s0.signal, s0.retryTime + 1⟩ s h
          dsimp only at ha hb
          exact ⟨by omega, by omega⟩
      · rw [Bool.not_eq_true] at hmiss
        rw [sessRun_check_healthy s0 rest hmiss] at h
        rw [runFailed_check_healthy s0 rest hmiss]
        by_cases hcl : ((s0.tunnel.map Prod.snd).getD false) = true
        · rw [if_pos hcl] at h
          exact absurd h (by simp)
        · rw [if_neg hcl] at h
          rw [if_neg hcl]
          exact ih s0 s h
    | setSignal =>
      obtain ⟨ha, hb⟩ := ih (applyEnv SessStep.setSignal s0) s h
      rw [applyEnv_retry] at ha hb
      exact ⟨ha, hb⟩
    | setTunnel m =>
      obtain ⟨ha, hb⟩ := ih (applyEnv (SessStep.setTunnel m) s0) s h
      rw [applyEnv_retry] at ha hb
      exact ⟨ha, hb⟩
    | setFile m =>
      obtain ⟨ha, hb⟩ := ih (applyEnv (SessStep.setFile m) s0) s h
      rw [applyEnv_retry] at ha hb
      exact ⟨ha, hb⟩
    | closeTunnel =>
      obtain ⟨ha, hb⟩ := ih (applyEnv SessStep.closeTunnel s0) s h
      rw [applyEnv_retry] at ha hb
      exact ⟨ha, hb⟩

theorem sessRun_removedMissing (steps : List SessStep) :
    ∀ s0 : Session, s0.retryTime ≤ 2 →
      (sessRun s0 steps = RunResult.removedMissing ↔
       s0.retryTime + runFailed s0 steps = 3) := by
  induction steps with
  | nil =>
    intro s0 hb
    constructor
    · intro h
      exact absurd h (by simp [sessRun])
    · intro h
      simp only [runFailed] at h
      omega
  | cons step rest ih =>
    intro s0 hb
    cases step with
    | check =>
      by_cases hmiss : missingConn s0 = true
      · rw [sessRun_check_missing s0 rest hmiss, runFailed_check_missing s0 rest hmiss]
        by_cases hrm : 3 ≤ s0.retryTime + 1
        · rw [if_pos hrm, if_pos hrm]
          constructor
          · intro _
            omega
          · intro _
            rfl
        · rw [if_neg hrm, if_neg hrm]
          have hih := ih ⟨s0.tunnel, s0.file, s0.signal, s0.retryTime + 1⟩
            (by dsimp only; omega)
          dsimp only at hih
          rw [hih]
          omega
      · rw [Bool.not_eq_true] at hmiss
        have hz : runFailed s0 (SessStep.check :: rest) = 0 :=
          runFailed_healthy s0 hmiss _
        rw [sessRun_check_healthy s0 rest hmiss, hz]
        by_cases hcl : ((s0.tunnel.map Prod.snd).getD false) = true
        · rw [if_pos hcl]
          constructor
          · intro h
            exact absurd h (by simp)
          · intro h
            omega
        · rw [if_neg hcl, ih s0 hb, runFailed_healthy s0 hmiss rest]
    | setSignal =>
      have := ih (applyEnv SessStep.setSignal s0) (by rw [applyEnv_retry]; exact hb)
      rw [applyEnv_retry] at this
      exact this
    | setTunnel m =>
      have := ih (applyEnv (SessStep.setTunnel m) s0) (by rw [applyEnv_retry]; exact hb)
      rw [applyEnv_retry] at this
      exact this
    | setFile m =>
      have := ih (applyEnv (SessStep.setFile m) s0) (by rw [applyEnv_retry]; exact hb)
      rw [applyEnv_retry] at this
      exact this
    | closeTunnel =>
      have := ih (applyEnv SessStep.closeTunnel s0) (by rw [applyEnv_retry]; exact hb)
      rw [applyEnv_retry] at this
      exact this

/-- C4: in the 5-second heartbeat sweep, every session whose signal
connection or tunnel mux is missing has its retry counter incremented (and
is deleted from the table exactly when the incremented counter reaches 3);
the sweep deletes exactly the flagged sessions.  Because the source only
ever assigns non-nil connections to a stored session (a session is created
whole with counter 0 and deleted whole), a connection never goes missing
again once present, so along every reachable history the failed checks are
consecutive: no check fails after a healthy one.  Hence a fresh session is
removed by the retry path exactly at its third consecutive failed check,
and after one or two failed checks it is still present, with the counter
equal to the number of failed checks. -/
theorem ping_third_consecutive_check :
    (∀ s : Session, missingConn s = true →
       pingCheck s = (⟨s.tunnel, s.file, s.signal, s.retryTime + 1⟩,
         decide (3 ≤ s.retryTime + 1))) ∧
    (∀ (key : Int) (s : Session),
       pingSweep [(key, s)] =
         if (pingCheck s).2 then [] else [(key, (pingCheck s).1)]) ∧
    (∀ (e : SessStep) (s : Session), missingConn s = false →
       missingConn (applyEnv e s) = false ∧
       (applyEnv e s).retryTime = s.retryTime) ∧
    (∀ s : Session, missingConn s = false →
       ∀ steps : List SessStep, runFailed s steps = 0) ∧
    (∀ (steps : List SessStep) (s0 s : Session), s0.retryTime = 0 →
       sessRun s0 steps = RunResult.alive s →
       s.retryTime = runFailed s0 steps ∧ runFailed s0 steps ≤ 2) ∧
    (∀ (steps : List SessStep) (s0 : Session), s0.retryTime = 0 →
       (sessRun s0 steps = RunResult.removedMissing ↔
        runFailed s0 steps = 3)) := by
  refine ⟨pingCheck_missing, ?_, ?_, runFailed_healthy, ?_, ?_⟩
  · intro key s
    by_cases hb : (pingCheck s).2 = true
    · simp [pingSweep, hb]
    · simp [pingSweep, hb]
  · intro e s h
    exact ⟨applyEnv_keeps_conn e s h, applyEnv_retry e s⟩
  · intro steps s0 s h0 hrun
    obtain ⟨ha, hb⟩ := sessRun_alive steps s0 s hrun
    rw [h0] at ha hb
    constructor
    · simpa using ha
    · omega
  · intro steps s0 h0
    have := sessRun_removedMissing steps s0 (by omega)
    rw [this, h0]
    omega

/-- Witness for C4: a fresh all-nil session survives two failed checks with
counter 2 and is removed by the retry path exactly at the third. -/
theorem ping_third_consecutive_check_witness :
    sessRun ⟨none, none, false, 0⟩ [SessStep.check, SessStep.check] =
      RunResult.alive ⟨none, none, false, 2⟩ ∧
    runFailed ⟨none, none, false, 0⟩ [SessStep.check, SessStep.check] = 2 ∧
    sessRun ⟨none, none, false, 0⟩ [SessStep.check, SessStep.check, SessStep.check] =
      RunResult.removedMissing := by
  obtain ⟨hA, hB, hC, hD, hE, hF⟩ := ping_third_consecutive_check
  have h1 : sessRun ⟨none, none, false, 0⟩ [SessStep.check, SessStep.check] =
      RunResult.alive ⟨none, none, false, 2⟩ := by rfl
  obtain ⟨he1, he2⟩ := hE [SessStep.check, SessStep.check]
    ⟨none, none, false, 0⟩ ⟨none, none, false, 2⟩ rfl h1
  refine ⟨h1, he1.symm, ?_⟩
  exact (hF [SessStep.check, SessStep.check, SessStep.check]
    ⟨none, none, false, 0⟩ rfl).mpr (by rfl)

/-! ## Claim C9 -/

/-- C9: the handoff timer of `PortMux.process` is `time.NewTimer(10)`:
ten *nanoseconds*, not the ten seconds the constant's comment and the spec
state (the `* time.Second` factor is missing). -/
theorem pmux_accept_timeout_bug :
    classifyHandoffTimerNs = ACCEPT_TIME_OUT ∧
    classifyHandoffTimerNs = 10 ∧
    classifyHandoffTimerNs ≠ 10 * nanosPerSecond := by
  refine ⟨rfl, rfl, by decide⟩

/-! ## Claim C5 -/

theorem selectLonger_fold_some (uri : String) (l : List Host) :
    ∀ (acc : Option Host) (hh : Host),
      l.foldl (selectLonger uri) acc = some hh →
      ((hh ∈ l ∧ strStartsWith uri hh.location = true) ∨ acc = some hh) ∧
      (∀ w ∈ l, strStartsWith uri w.location = true →
         w.location.length ≤ hh.location.length) ∧
      (∀ a : Host, acc = some a → a.location.length ≤ hh.location.length) := by
  induction l with
  | nil =>
    intro acc hh h
    simp only [List.foldl_nil] at h
    refine ⟨Or.inr h, by simp, ?_⟩
    intro a ha
    rw [ha] at h
    rw [Option.some.inj h]
  | cons v rest ih =>
    intro acc hh h
    rw [List.foldl_cons] at h
    obtain ⟨ih1, ih2, ih3⟩ := ih (selectLonger uri acc v) hh h
    by_cases hpv : strStartsWith uri v.location = true
    · have hacc : ∃ c : Host, selectLonger uri acc v = some c ∧
          v.location.length ≤ c.location.length ∧
          (c = v ∧ strStartsWith uri c.location = true ∨ acc = some c) ∧
          (∀ a : Host, acc = some a → a.location.length ≤ c.location.length) := by
        match acc with
        | none =>
          exact ⟨v, by simp [selectLonger, hpv], le_refl _, Or.inl ⟨rfl, hpv⟩, by simp⟩
        | some a0 =>
          by_cases hlen : a0.location.length < v.location.length
          · refine ⟨v, by simp [selectLonger, hpv, hlen], le_refl _,
              Or.inl ⟨rfl, hpv⟩, ?_⟩
            intro a ha
            rw [← Option.some.inj ha]
            omega
          · refine ⟨a0, by simp [selectLonger, hpv, hlen], by omega, Or.inr rfl, ?_⟩
            intro a ha
            rw [← Option.some.inj ha]
      obtain ⟨c, hc, hvc, hcor, hcacc⟩ := hacc
      have hclen : c.location.length ≤ hh.location.length := ih3 c hc
      refine ⟨?_, ?_, ?_⟩
      · rcases ih1 with ⟨hmem, hpre⟩ | hacc2
        · exact Or.inl ⟨List.mem_cons_of_mem v hmem, hpre⟩
        · rw [hc] at hacc2
          have hch : c = hh := Option.some.inj hacc2
          rcases hcor with ⟨hcv, hcpre⟩ | haccc
          · exact Or.inl ⟨by rw [← hch, hcv]; exact List.mem_cons_self v rest,
              by rw [← hch]; exact hcpre⟩
          · exact Or.inr (by rw [haccc, hch])
      · intro w hw hwpre
        rcases List.mem_cons.mp hw with hwv | hwrest
        · subst hwv
          omega
        · exact ih2 w hwrest hwpre
      · intro a ha
        have := hcacc a ha
        omega
    · have hacc : selectLonger uri acc v = acc := by
        unfold selectLonger
        rw [if_neg hpv]
      rw [hacc] at ih1 ih3
      refine ⟨?_, ?_, ?_⟩
      · rcases ih1 with ⟨hmem, hpre⟩ | hacc2
        · exact Or.inl ⟨List.mem_cons_of_mem v hmem, hpre⟩
        · exact Or.inr hacc2
      · intro w hw hwpre
        rcases List.mem_cons.mp hw with hwv | hwrest
        · subst hwv
          exact absurd hwpre hpv
        · exact ih2 w hwrest hwpre
      · exact ih3

theorem selectLonger_fold_none (uri : String) (l : List Host) :
    ∀ acc : Option Host,
      l.foldl (selectLonger uri) acc = none →
      acc = none ∧ ∀ w ∈ l, strStartsWith uri w.location = false := by
  induction l with
  | nil =>
    intro acc h
    simp only [List.foldl_nil] at h
    exact ⟨h, by simp⟩
  | cons v rest ih =>
    intro acc h
    rw [List.foldl_cons] at h
    obtain ⟨ih1, ih2⟩ := ih (selectLonger uri acc v) h
    by_cases hpv : strStartsWith uri v.location = true
    · exfalso
      match acc, ih1 with
      | none, hx => simp [selectLonger, hpv] at hx
      | some a0, hx =>
        by_cases hlen : a0.location.length < v.location.length
        · simp [selectLonger, hpv, hlen] at hx
        · simp [selectLonger, hpv, hlen] at hx
    · have hacc : selectLonger uri acc v = acc := by
        unfold selectLonger
        rw [if_neg hpv]
      rw [hacc] at ih1
      refine ⟨ih1, ?_⟩
      intro w hw
      rcases List.mem_cons.mp hw with hwv | hwrest
      · subst hwv
        exact Bool.not_eq_true _ ▸ Bool.of_not_eq_true hpv
      · exact ih2 w hwrest

/-- C5: `GetInfoByHost` selects, among the non-closed hosts whose scheme is
`"all"` or the request scheme and whose pattern matches the request host
(exactly, or by wildcard) — the `hostCandidates` — an eligible host whose
location starts the request URI and is of maximal length; when no candidate
location starts the URI it fails.  In particular hosts `a.com /` and
`a.com /api` resolve `GET /api/x` to the `/api` host, and the wildcard
`*.a.com` matches `x.a.com` and `y.a.com` but not `a.com`. -/
theorem getInfoByHost_spec :
    (∀ (hosts : List Host) (reqHost scheme uri : String) (h : Host),
       getInfoByHost hosts reqHost scheme uri = some h →
       (h ∈ hostCandidates hosts reqHost scheme ∧ strStartsWith uri h.location = true) ∧
       (∀ w ∈ hostCandidates hosts reqHost scheme,
          strStartsWith uri w.location = true →
          w.location.length ≤ h.location.length)) ∧
    (∀ (hosts : List Host) (reqHost scheme uri : String),
       getInfoByHost hosts reqHost scheme uri = none →
       ∀ w ∈ hostCandidates hosts reqHost scheme,
         strStartsWith uri w.location = false) ∧
    getInfoByHost [hostRoot, hostApi] "a.com" "http" "/api/x" = some hostApi ∧
    hostPatternMatch "*.a.com" "x.a.com" = true ∧
    hostPatternMatch "*.a.com" "y.a.com" = true ∧
    hostPatternMatch "*.a.com" "a.com" = false := by
  refine ⟨?_, ?_, by rfl, by rfl, by rfl, by rfl⟩
  · intro hosts reqHost scheme uri h hres
    obtain ⟨h1, h2, h3⟩ :=
      selectLonger_fold_some uri (hostCandidates hosts reqHost scheme) none h hres
    rcases h1 with hmem | habs
    · exact ⟨hmem, h2⟩
    · exact Option.noConfusion habs
  · intro hosts reqHost scheme uri hres
    exact (selectLonger_fold_none uri (hostCandidates hosts reqHost scheme) none hres).2

/-- Witness for C5 at the two-host example. -/
theorem getInfoByHost_spec_witness :
    (hostApi ∈ hostCandidates [hostRoot, hostApi] "a.com" "http" ∧
     strStartsWith "/api/x" hostApi.location = true) ∧
    (∀ w ∈ hostCandidates [hostRoot, hostApi] "a.com" "http",
       strStartsWith "/api/x" w.location = true →
       w.location.length ≤ hostApi.location.length) := by
  exact getInfoByHost_spec.1 [hostRoot, hostApi] "a.com" "http" "/api/x" hostApi
    (by rfl)

/-! ## Claim C6 -/

theorem i64_eq_self (x : Int) (h1 : -(2 ^ 63) ≤ x) (h2 : x < 2 ^ 63) :
    i64 x = x := by
  unfold i64
  rw [Int.emod_eq_of_lt (by omega) (by omega)]
  omega

/-- C6 counterexample: at the exact boundary — quota 1 MiB and cumulative
flow `1 <<< 20` bytes, so `in + out = quota <<< 20` — the claim requires a
rejection (`>=`), but the code compares strictly and admits the flow (and
increments the live-connection counter). -/
theorem checkFlow_boundary_counterexample :
    quotaBoundaryClient.flow.flowLimit = 1 ∧
    quotaBoundaryClient.flow.exportFlow + quotaBoundaryClient.flow.inletFlow =
      quotaBoundaryClient.flow.flowLimit * 2 ^ 20 ∧
    checkFlowAndConnNum quotaBoundaryClient = Except.ok ⟨⟨1048576, 0, 1⟩, 0, 1⟩ := by
  refine ⟨rfl, by decide, by rfl⟩

/-- C6 (amended): for flows and quota in the int64-representable range, the
gate rejects with the traffic error exactly when the quota is positive and
the cumulative flow is *strictly greater* than the quota shifted left by 20
bits; at or below that bound the flow is never rejected for quota reasons
(it may still be rejected by the connection-count gate, with a different
error). -/
theorem checkFlowAndConnNum_amended (c : FClient)
    (he : 0 ≤ c.flow.exportFlow) (hi : 0 ≤ c.flow.inletFlow)
    (hq : 0 ≤ c.flow.flowLimit)
    (hql : c.flow.flowLimit * 2 ^ 20 < 2 ^ 63)
    (hfs : c.flow.exportFlow + c.flow.inletFlow < 2 ^ 63) :
    (checkFlowAndConnNum c = Except.error "Traffic exceeded" ↔
      0 < c.flow.flowLimit ∧
      c.flow.flowLimit * 2 ^ 20 < c.flow.exportFlow + c.flow.inletFlow) := by
  have e1 : i64 (c.flow.flowLimit * 2 ^ 20) = c.flow.flowLimit * 2 ^ 20 :=
    i64_eq_self _ (by omega) (by omega)
  have e2 : i64 (c.flow.exportFlow + c.flow.inletFlow) =
      c.flow.exportFlow + c.flow.inletFlow :=
    i64_eq_self _ (by omega) (by omega)
  unfold checkFlowAndConnNum
  rw [e1, e2]
  by_cases hcond : c.flow.flowLimit > 0 ∧
      c.flow.flowLimit * 2 ^ 20 < c.flow.exportFlow + c.flow.inletFlow
  · rw [if_pos hcond]
    exact ⟨fun _ => ⟨hcond.1, hcond.2⟩, fun _ => rfl⟩
  · rw [if_neg hcond]
    constructor
    · intro hres
      exfalso
      by_cases hg : (getConn c).1 = true
      · rw [if_pos hg] at hres
        exact Except.noConfusion hres
      · rw [if_neg hg] at hres
        have : "Connections exceed the current client limit" = "Traffic exceeded" := by
          injection hres
        simp at this
    · intro hcond2
      exact absurd ⟨hcond2.1, hcond2.2⟩ hcond

/-- Witness for C6 (amended): one byte over the boundary is rejected, the
boundary itself is admitted. -/
theorem checkFlowAndConnNum_amended_witness :
    checkFlowAndConnNum ⟨⟨1048577, 0, 1⟩, 0, 0⟩ = Except.error "Traffic exceeded" ∧
    ¬ checkFlowAndConnNum ⟨⟨1048576, 0, 1⟩, 0, 0⟩ = Except.error "Traffic exceeded" := by
  constructor
  · exact (checkFlowAndConnNum_amended ⟨⟨1048577, 0, 1⟩, 0, 0⟩ (by decide)
      (by decide) (by decide) (by decide) (by decide)).mpr ⟨by decide, by decide⟩
  · intro hcontra
    have := (checkFlowAndConnNum_amended ⟨⟨1048576, 0, 1⟩, 0, 0⟩ (by decide)
      (by decide) (by decide) (by decide) (by decide)).mp hcontra
    exact absurd this (by decide)

/-! ## Claim C7 -/

/-- C7: creating a tunnel whose password equals the password of an
already-stored tunnel of mode `secret` or `p2p` fails with an error — the
task store is only returned (hence only changed) on success — and in
particular the second of two secret tunnels with the same password is
refused. -/
theorem newTask_password_unique :
    (∀ (tasks : List Tunnel) (t v : Tunnel), v ∈ tasks →
       (v.mode = "secret" ∨ v.mode = "p2p") → v.password = t.password →
       newTask tasks t =
         Except.error ("secret mode keys " ++ t.password ++ " must be unique")) ∧
    newTask [secretT1] secretT2 =
      Except.error "secret mode keys s3cr3t must be unique" := by
  constructor
  · intro tasks t v hv hm hp
    unfold newTask
    cases hfind : tasks.find? (fun v => (v.mode == "secret" || v.mode == "p2p") &&
        v.password == t.password) with
    | some w => rfl
    | none =>
      exfalso
      have hnone := List.find?_eq_none.mp hfind v hv
      apply hnone
      rcases hm with hs | hp2
      · simp [hs, hp]
      · simp [hp2, hp]
  · rfl

/-- Witness for C7 at the two concrete secret tunnels. -/
theorem newTask_password_unique_witness :
    newTask [secretT1, secretT1] secretT2 =
      Except.error ("secret mode keys " ++ secretT2.password ++ " must be unique") := by
  exact newTask_password_unique.1 [secretT1, secretT1] secretT2 secretT1
    (List.mem_cons_self secretT1 [secretT1]) (Or.inl rfl) rfl

/-! ## Claim C8 -/

/-- C8 counterexample: the claim says BIND is answered with reply code 7 and
a close; in the code `handleBind` is an empty stub, so the BIND arm of
`handleRequest` writes no reply and closes nothing — whatever the
connect/udp handlers would do. -/
theorem socks5_bind_counterexample :
    handleRequest bindMethod ⟨[0], false, true⟩ ⟨[0], false, true⟩ =
      ⟨[], false, false⟩ ∧
    (handleRequest bindMethod ⟨[0], false, true⟩ ⟨[0], false, true⟩).replies = [] ∧
    (handleRequest bindMethod ⟨[0], false, true⟩ ⟨[0], false, true⟩).closes = false := by
  refine ⟨rfl, rfl, rfl⟩

/-- C8 (amended): a SOCKS5 request with command byte BIND (2) is dispatched
to the empty `handleBind` stub: no reply is written, the connection is not
closed by the handler, and no stream to the agent is ever opened; only
command bytes outside {1, 2, 3} receive the command-not-supported (0x07)
reply followed by a close. -/
theorem socks5_bind_amended :
    (∀ connectEff udpEff : SockEffects,
       handleRequest bindMethod connectEff udpEff = handleBindEffects) ∧
    handleBindEffects.replies = [] ∧
    handleBindEffects.closes = false ∧
    handleBindEffects.opensStream = false ∧
    (∀ (cmd : Nat) (connectEff udpEff : SockEffects),
       cmd ≠ connectMethod → cmd ≠ bindMethod → cmd ≠ associateMethod →
       handleRequest cmd connectEff udpEff = rejectEffects) ∧
    rejectEffects.replies = [commandNotSupported] ∧
    rejectEffects.closes = true ∧
    rejectEffects.opensStream = false := by
  refine ⟨fun _ _ => rfl, rfl, rfl, rfl, ?_, rfl, rfl, rfl⟩
  intro cmd connectEff udpEff hc hb ha
  unfold handleRequest
  rw [if_neg hc, if_neg hb, if_neg ha]

/-- Witness for C8 (amended) at command byte 9. -/
theorem socks5_bind_amended_witness :
    handleRequest 9 ⟨[0], false, true⟩ ⟨[0], false, true⟩ = rejectEffects ∧
    handleRequest 2 ⟨[0], false, true⟩ ⟨[0], false, true⟩ = handleBindEffects := by
  exact ⟨socks5_bind_amended.2.2.2.2.1 9 ⟨[0], false, true⟩ ⟨[0], false, true⟩
      (by decide) (by decide) (by decide),
    socks5_bind_amended.1 ⟨[0], false, true⟩ ⟨[0], false, true⟩⟩

end NPS
